import Mathlib

/-!
Shallow embedding of the core of a small Redis-like server (RESP codec,
command translator and key-value store with lazy millisecond expiry),
translated from its two Rust source files `src/resp.rs` and `src/main.rs`.

Conventions of the embedding:

* Rust byte buffers (`BytesMut`, `&[u8]`, `Vec<u8>`) are `List Nat`, one
  entry per byte.  Rust `String`s are also `List Nat` (their UTF-8 bytes);
  `String::from_utf8` becomes an explicit UTF-8 validity check.
* Machine integers are `Nat`/`Int` with explicit range checks and explicit
  two's-complement wrap-around where the Rust code wraps (`as i64`,
  `as u128`, release-mode arithmetic).
* Fallible Rust code (`anyhow::Result`) returns `Except PErr _` where
  `PErr.err` is an `Err(...)` value and `PErr.panic` marks a Rust panic
  (explicit `panic!`, `.unwrap()`/`.expect` on a failing value, an
  out-of-bounds slice index, or overflow of a `usize` addition).
* `SystemTime` instants are `Nat` timestamps in milliseconds; the current
  time is passed explicitly to the store operations.
-/

namespace Codecrafters

/-- Outcome tag for fallible Rust code: `err` is an ordinary `Err(...)`
result, `panic` marks a Rust panic (including out-of-bounds slices and
`.unwrap()` on errors). -/
inductive PErr where
  | err
  | panic
deriving DecidableEq

instance {ε α : Type} [DecidableEq ε] [DecidableEq α] : DecidableEq (Except ε α)
  | .ok a, .ok b => if h : a = b then .isTrue (by rw [h]) else .isFalse (by simp [h])
  | .ok _, .error _ => .isFalse (by simp)
  | .error _, .ok _ => .isFalse (by simp)
  | .error a, .error b => if h : a = b then .isTrue (by rw [h]) else .isFalse (by simp [h])

/-- Result type of the embedded fallible Rust functions. -/
abbrev PResult (α : Type) := Except PErr α

/-- `enum RedisValue` from `src/resp.rs` (the `Error` variant is commented
out in the source).  String payloads are kept as their UTF-8 byte lists. -/
inductive RedisValue where
  | SimpleString : List Nat → RedisValue
  | Integer : Int → RedisValue
  | BulkString : List Nat → RedisValue
  | Array : List RedisValue → RedisValue

mutual

def RedisValue.decEq : (a b : RedisValue) → Decidable (a = b)
  | .SimpleString a, .SimpleString b =>
      if h : a = b then .isTrue (by rw [h]) else .isFalse (by simp [h])
  | .SimpleString _, .Integer _ => .isFalse (by simp)
  | .SimpleString _, .BulkString _ => .isFalse (by simp)
  | .SimpleString _, .Array _ => .isFalse (by simp)
  | .Integer _, .SimpleString _ => .isFalse (by simp)
  | .Integer a, .Integer b =>
      if h : a = b then .isTrue (by rw [h]) else .isFalse (by simp [h])
  | .Integer _, .BulkString _ => .isFalse (by simp)
  | .Integer _, .Array _ => .isFalse (by simp)
  | .BulkString _, .SimpleString _ => .isFalse (by simp)
  | .BulkString _, .Integer _ => .isFalse (by simp)
  | .BulkString a, .BulkString b =>
      if h : a = b then .isTrue (by rw [h]) else .isFalse (by simp [h])
  | .BulkString _, .Array _ => .isFalse (by simp)
  | .Array _, .SimpleString _ => .isFalse (by simp)
  | .Array _, .Integer _ => .isFalse (by simp)
  | .Array _, .BulkString _ => .isFalse (by simp)
  | .Array a, .Array b =>
      match RedisValue.decEqList a b with
      | .isTrue h => .isTrue (by rw [h])
      | .isFalse h => .isFalse (by simp [h])

def RedisValue.decEqList : (a b : List RedisValue) → Decidable (a = b)
  | [], [] => .isTrue rfl
  | [], _ :: _ => .isFalse (by simp)
  | _ :: _, [] => .isFalse (by simp)
  | x :: xs, y :: ys =>
      match RedisValue.decEq x y with
      | .isTrue h1 =>
        match RedisValue.decEqList xs ys with
        | .isTrue h2 => .isTrue (by rw [h1, h2])
        | .isFalse h2 => .isFalse (by simp [h2])
      | .isFalse h1 => .isFalse (by simp [h1])

end

instance : DecidableEq RedisValue := RedisValue.decEq

/-! ### Byte-level helpers shared by the embedded functions -/

/-- ASCII decimal digit test, used to embed Rust's `str::parse` on integers
(`'0'` = 48, `'9'` = 57). -/
def isDigitByte (b : Nat) : Bool := decide (48 ≤ b ∧ b ≤ 57)

/-- Value of a list of ASCII digit bytes, most significant first. -/
def digitsVal (l : List Nat) : Nat := l.foldl (fun acc b => acc * 10 + (b - 48)) 0

/-- Parses a non-empty all-digit byte list to its value; `none` otherwise.
This is the unsigned core shared by the embeddings of `parse::<i64>` and
`parse::<u64>` (a byte outside the ASCII digits also covers the
`str::from_utf8` failure, which errors through the same `?`). -/
def digitsToNat? (l : List Nat) : Option Nat :=
  if l ≠ [] ∧ l.all isDigitByte then some (digitsVal l) else none

/-- Decimal rendering of a `Nat` as ASCII bytes, as Rust's `format!("{}", n)`
renders a `usize`. -/
def natToDecimal (n : Nat) : List Nat :=
  if n = 0 then [48] else (Nat.digits 10 n).reverse.map (· + 48)

/-- Continuation byte test (`0x80 ≤ b ≤ 0xBF`) for UTF-8. -/
def isContByte (b : Nat) : Bool := decide (0x80 ≤ b ∧ b ≤ 0xBF)

/-- Strict UTF-8 validity of a byte list, as checked by Rust's
`String::from_utf8` / `str::from_utf8` (no overlong forms, no surrogates,
nothing above U+10FFFF). -/
def isValidUTF8 : List Nat → Bool
  | [] => true
  | b :: rest =>
    if b ≤ 0x7F then isValidUTF8 rest
    else if 0xC2 ≤ b ∧ b ≤ 0xDF then
      match rest with
      | c1 :: rest => isContByte c1 && isValidUTF8 rest
      | _ => false
    else if b = 0xE0 then
      match rest with
      | c1 :: c2 :: rest =>
        decide (0xA0 ≤ c1 ∧ c1 ≤ 0xBF) && isContByte c2 && isValidUTF8 rest
      | _ => false
    else if (0xE1 ≤ b ∧ b ≤ 0xEC) ∨ b = 0xEE ∨ b = 0xEF then
      match rest with
      | c1 :: c2 :: rest => isContByte c1 && isContByte c2 && isValidUTF8 rest
      | _ => false
    else if b = 0xED then
      match rest with
      | c1 :: c2 :: rest =>
        decide (0x80 ≤ c1 ∧ c1 ≤ 0x9F) && isContByte c2 && isValidUTF8 rest
      | _ => false
    else if b = 0xF0 then
      match rest with
      | c1 :: c2 :: c3 :: rest =>
        decide (0x90 ≤ c1 ∧ c1 ≤ 0xBF) && isContByte c2 && isContByte c3 && isValidUTF8 rest
      | _ => false
    else if 0xF1 ≤ b ∧ b ≤ 0xF3 then
      match rest with
      | c1 :: c2 :: c3 :: rest =>
        isContByte c1 && isContByte c2 && isContByte c3 && isValidUTF8 rest
      | _ => false
    else if b = 0xF4 then
      match rest with
      | c1 :: c2 :: c3 :: rest =>
        decide (0x80 ≤ c1 ∧ c1 ≤ 0x8F) && isContByte c2 && isContByte c3 && isValidUTF8 rest
      | _ => false
    else false

/-- Number of scalar values of a valid UTF-8 byte list: exactly the bytes
that are not continuation bytes lead a character.  Embeds Rust's
`s.chars().count()`, which the source only applies to values of type
`String` (always valid UTF-8). -/
def utf8CharCount (s : List Nat) : Nat := (s.filter (fun b => !isContByte b)).length

/-- ASCII lowercasing, one byte at a time.  Rust's `str::to_lowercase` is
Unicode-aware, but every comparison in the source is against a plain ASCII
keyword (`"echo"`, `"set"`, `"px"`, ...), on which the two coincide. -/
def ascii_lowercase (s : List Nat) : List Nat :=
  s.map (fun b => if 65 ≤ b ∧ b ≤ 90 then b + 32 else b)

/-! ### The RESP codec, from `src/resp.rs` -/

/-- `RedisValue::serialize` (resp.rs lines 22-33).  SimpleStrings become
`+<text>\r\n`; the BulkString `"-1"` becomes the null bulk string
`$-1\r\n`; other BulkStrings become `$<char count>\r\n<text>\r\n` (note the
source writes `s.chars().count()`, the character count, into the length
header, not the byte count); every other variant hits
`panic!("Unsupported value for serialize")`. -/
def RedisValue.serialize : RedisValue → PResult (List Nat)
  | .SimpleString s => .ok (43 :: s ++ [13, 10])
  | .BulkString s =>
    if s = [45, 49] then .ok [36, 45, 49, 13, 10]
    else .ok (36 :: natToDecimal (utf8CharCount s) ++ [13, 10] ++ s ++ [13, 10])
  | _ => .error .panic

/-- `read_until_crlf` (resp.rs lines 110-117): scans for the first adjacent
`\r\n` pair; returns the bytes before it and the count of bytes consumed
including the terminator. -/
def read_until_crlf : List Nat → Option (List Nat × Nat)
  | [] => none
  | [_] => none
  | a :: b :: rest =>
    if a = 13 ∧ b = 10 then some ([], 2)
    else (read_until_crlf (b :: rest)).map (fun p => (a :: p.1, p.2 + 1))

/-- `parse_int` (resp.rs lines 146-148): `str::from_utf8(buffer)?.parse::<i64>()?`.
Rust's `i64` parsing accepts an optional leading `+` or `-` followed by at
least one digit, and fails outside `[-2^63, 2^63 - 1]`; any non-digit byte
(which subsumes invalid UTF-8) fails. -/
def parse_int (s : List Nat) : Except Unit Int :=
  match s with
  | [] => .error ()
  | b :: rest =>
    if b = 43 then
      match digitsToNat? rest with
      | some n => if n ≤ 2 ^ 63 - 1 then .ok (n : Int) else .error ()
      | none => .error ()
    else if b = 45 then
      match digitsToNat? rest with
      | some n => if n ≤ 2 ^ 63 then .ok (-(n : Int)) else .error ()
      | none => .error ()
    else
      match digitsToNat? s with
      | some n => if n ≤ 2 ^ 63 - 1 then .ok (n : Int) else .error ()
      | none => .error ()

/-- Rust's `str::parse::<u64>`: an optional leading `+` (unsigned parsing
still permits one `+`), then at least one digit, value below `2^64`. -/
def parse_u64 (s : List Nat) : Option Nat :=
  match s with
  | [] => none
  | b :: _ =>
    match digitsToNat? (if b = 43 then s.drop 1 else s) with
    | some n => if n < 2 ^ 64 then some n else none
    | none => none

/-- Two's-complement wrap of an integer into the `i64` range, the effect of
Rust's `as i64` cast and of release-mode `i64` arithmetic. -/
def i64_wrap (x : Int) : Int := (x + 2 ^ 63) % 2 ^ 64 - 2 ^ 63

/-- `parse_int_with_sign` (resp.rs lines 128-144): strips one leading `+`
or `-`, parses the remainder with `parse::<u64>`, and returns
`sign * (unsigned_val as i64)`.  The `as i64` cast wraps values of
`[2^63, 2^64)` into negatives, and the product is release-mode (wrapping)
`i64` arithmetic. -/
def parse_int_with_sign (line : List Nat) : Except Unit Int :=
  match line with
  | [] => .error ()
  | b :: rest =>
    let sign : Int := if b = 45 then -1 else 1
    let digitsPart := if b = 43 ∨ b = 45 then rest else b :: rest
    match parse_u64 digitsPart with
    | some n => .ok (i64_wrap (sign * i64_wrap (n : Int)))
    | none => .error ()

/-- `parse_simple_string` (resp.rs lines 68-74): reads until CRLF after the
leading `+`; the source then calls `String::from_utf8(...).unwrap()`, so an
invalid UTF-8 line is a panic, and a missing CRLF an error. -/
def parse_simple_string (buffer : List Nat) : PResult (RedisValue × Nat) :=
  match read_until_crlf (buffer.drop 1) with
  | none => .error .err
  | some (line, len) =>
    if isValidUTF8 line then .ok (.SimpleString line, len + 1)
    else .error .panic

/-- `parse_bulk_string` (resp.rs lines 76-91): parses the length header,
then slices `buffer[bytes_consumed..end_of_bulk_str]` and reports
`total_parsed = end_of_bulk_str + 2` WITHOUT examining the two bytes after
the payload.  A negative declared length wraps through `as usize` and makes
the slice panic; a slice end past the buffer also panics; invalid UTF-8 in
the payload errors through `String::from_utf8(...)?`. -/
def parse_bulk_string (buffer : List Nat) : PResult (RedisValue × Nat) :=
  match read_until_crlf (buffer.drop 1) with
  | none => .error .err
  | some (line, len) =>
    match parse_int line with
    | .error _ => .error .err
    | .ok bulk_str_len =>
      let bytes_consumed := len + 1
      if bulk_str_len < 0 then .error .panic
      else
        let end_of_bulk_str := bytes_consumed + bulk_str_len.toNat
        let total_parsed := end_of_bulk_str + 2
        if buffer.length < end_of_bulk_str then .error .panic
        else
          let payload := (buffer.drop bytes_consumed).take bulk_str_len.toNat
          if isValidUTF8 payload then .ok (.BulkString payload, total_parsed)
          else .error .err

/-- The element loop of `parse_array` (resp.rs lines 101-106):
`for _ in 0..array_length` parses one message at offset `consumed` and
accumulates consumed byte counts.  `&buffer[consumed..]` panics when
`consumed` exceeds the buffer length.  The recursive parser for one element
is passed in as `p` (it is `parse_message` at one less fuel). -/
def parse_items (p : List Nat → PResult (RedisValue × Nat)) (buffer : List Nat) :
    Nat → Nat → PResult (List RedisValue × Nat)
  | consumed, 0 => .ok ([], consumed)
  | consumed, count + 1 =>
    if buffer.length < consumed then .error .panic
    else
      match p (buffer.drop consumed) with
      | .error e => .error e
      | .ok (item, len) =>
        match parse_items p buffer (consumed + len) count with
        | .error e => .error e
        | .ok (items, c) => .ok (item :: items, c)

/-- `parse_array` (resp.rs lines 93-108): parses the element count after
`*` (a negative count yields an empty loop, hence `Int.toNat`), then runs
the element loop. -/
def parse_array (p : List Nat → PResult (RedisValue × Nat)) (buffer : List Nat) :
    PResult (RedisValue × Nat) :=
  match read_until_crlf (buffer.drop 1) with
  | none => .error .err
  | some (line, len) =>
    match parse_int line with
    | .error _ => .error .err
    | .ok array_length =>
      match parse_items p buffer (len + 1) array_length.toNat with
      | .error e => .error e
      | .ok (items, consumed) => .ok (.Array items, consumed)

/-- `parse_message` (resp.rs lines 57-66): dispatches on the first byte:
`+` (43) simple string, `*` (42) array, `$` (36) bulk string; anything
else, including `:` whose branch is commented out in the source, is an
error.  `buffer[0]` on an empty buffer panics.  The `fuel` argument only
bounds the recursion through nested arrays so the definition is structural;
every concrete evaluation below instantiates it amply, and for buffers that
do not start with `*` any positive fuel gives the source's behaviour. -/
def parse_message : Nat → List Nat → PResult (RedisValue × Nat)
  | _, [] => .error .panic
  | 0, _ :: _ => .error .panic
  | fuel + 1, b :: rest =>
    if b = 43 then parse_simple_string (b :: rest)
    else if b = 42 then parse_array (parse_message fuel) (b :: rest)
    else if b = 36 then parse_bulk_string (b :: rest)
    else .error .err

/-! ### The command translator and store engine, from `src/main.rs` -/

/-- `enum RedisCommand` (main.rs lines 9-17). -/
inductive RedisCommand where
  | Echo : RedisValue → RedisCommand
  | Ping : RedisCommand
  | Set : RedisValue → RedisValue → RedisCommand
  | SetTimeout : RedisValue → RedisValue → RedisValue → RedisCommand
  | Get : RedisValue → RedisCommand
  | Info : RedisValue → RedisCommand

/-- The `GLOBAL_HASHMAP` state:
`HashMap<RedisValue, (RedisValue, Option<(RedisValue, SystemTime)>)>`,
as a function from keys to optional entries.  The `Nat` is the insertion
instant in milliseconds. -/
abbrev StoreMap := RedisValue → Option (RedisValue × Option (RedisValue × Nat))

/-- `HashMap::insert`: replaces any previous entry for the key. -/
def storeInsert (m : StoreMap) (key : RedisValue)
    (e : RedisValue × Option (RedisValue × Nat)) : StoreMap :=
  fun k => if k = key then some e else m k

/-- Rust's `as u128` cast of an `i64`: two's-complement reinterpretation,
so a negative timeout becomes `2^128 + t`. -/
def u128_of_i64 (t : Int) : Nat := (t % 2 ^ 128).toNat

/-- ASCII bytes of `"replication"`. -/
def replicationBytes : List Nat := [114, 101, 112, 108, 105, 99, 97, 116, 105, 111, 110]

/-- ASCII bytes of `"role:master"`. -/
def roleMasterBytes : List Nat := [114, 111, 108, 101, 58, 109, 97, 115, 116, 101, 114]

/-- `handle_command` (main.rs lines 96-166), with the global map and the
current time passed explicitly; returns the updated map and the
`Option<RedisValue>` result.  `Set` inserts with no expiry; `SetTimeout`
records the timeout value and the current instant; `Get` looks the key up
and, when an expiry is recorded, compares
`elapsed > *timeout as u128` (`inserted_at.elapsed()` panics through
`.expect` if the clock ran backwards, and a non-`Integer` recorded timeout
hits the `panic!` arm); `Info` panics unless its argument is the
BulkString `"replication"` up to lowercasing; `Echo`/`Ping` fall to the
final `panic!("Can handle only Set command yet.")` arm. -/
def handle_command (m : StoreMap) (now : Nat) : RedisCommand → PResult (StoreMap × Option RedisValue)
  | .Set key value => .ok (storeInsert m key (value, none), none)
  | .SetTimeout key value timeout => .ok (storeInsert m key (value, some (timeout, now)), none)
  | .Get key =>
    match m key with
    | none => .ok (m, none)
    | some (value, none) => .ok (m, some value)
    | some (value, some (.Integer timeout, inserted_at)) =>
      if now < inserted_at then .error .panic
      else
        let elapsed := now - inserted_at
        if u128_of_i64 timeout < elapsed then .ok (m, some (.BulkString [45, 49]))
        else .ok (m, some value)
    | some (_, some (_, _)) => .error .panic
  | .Info sect =>
    match sect with
    | .BulkString s =>
      if ascii_lowercase s = replicationBytes then .ok (m, some (.BulkString roleMasterBytes))
      else .error .panic
    | _ => .error .panic
  | .Echo _ => .error .panic
  | .Ping => .error .panic

/-- ASCII bytes of `"echo"`. -/
def echoBytes : List Nat := [101, 99, 104, 111]

/-- ASCII bytes of `"set"`. -/
def setBytes : List Nat := [115, 101, 116]

/-- ASCII bytes of `"get"`. -/
def getBytes : List Nat := [103, 101, 116]

/-- ASCII bytes of `"ping"`. -/
def pingBytes : List Nat := [112, 105, 110, 103]

/-- ASCII bytes of `"info"`. -/
def infoBytes : List Nat := [105, 110, 102, 111]

/-- ASCII bytes of `"px"`. -/
def pxBytes : List Nat := [112, 120]

/-- `to_command` (main.rs lines 178-240).  `echo` takes
`args.first().unwrap()`, which panics on an empty argument list; `set`
errors below 2 arguments, and with exactly 4 arguments requires a
BulkString third argument (else `panic!("px command expected but not
found")`) lowercasing to `"px"` (else an `Err`); the TTL argument, when a
BulkString, goes through `parse_int_with_sign(...).unwrap()` (a panic on
parse failure), and when NOT a BulkString is silently replaced by the
default `Integer(1000)`; any other argument count of at least 2 builds a
plain `Set` from the first two arguments; `get`/`info` error on zero
arguments; an unknown name is an `Err`. -/
def to_command (command : List Nat) (args : List RedisValue) : PResult RedisCommand :=
  let c := ascii_lowercase command
  if c = echoBytes then
    match args with
    | [] => .error .panic
    | a :: _ => .ok (.Echo a)
  else if c = setBytes then
    if args.length < 2 then .error .err
    else if args.length = 4 then
      match args with
      | [key, value, a2, a3] =>
        match a2 with
        | .BulkString px_command =>
          if ascii_lowercase px_command = pxBytes then
            match a3 with
            | .BulkString num_as_str =>
              match parse_int_with_sign num_as_str with
              | .ok n => .ok (.SetTimeout key value (.Integer n))
              | .error _ => .error .panic
            | _ => .ok (.SetTimeout key value (.Integer 1000))
          else .error .err
        | _ => .error .panic
      | _ => .error .panic
    else
      match args with
      | key :: value :: _ => .ok (.Set key value)
      | _ => .error .err
  else if c = getBytes then
    match args with
    | [] => .error .err
    | key :: _ => .ok (.Get key)
  else if c = pingBytes then .ok .Ping
  else if c = infoBytes then
    match args with
    | [] => .error .err
    | a :: _ => .ok (.Info a)
  else .error .err

/-! ### Helper lemmas -/

/-- `read_until_crlf` finds the terminator placed right after a CR-free
line and returns exactly that line and its length plus two. -/
theorem read_until_crlf_append (line rest : List Nat) (h : ∀ b ∈ line, b ≠ 13) :
    read_until_crlf (line ++ 13 :: 10 :: rest) = some (line, line.length + 2) := by
  induction line with
  | nil => simp [read_until_crlf]
  | cons b line ih =>
    have hb : b ≠ 13 := h b (List.mem_cons_self _ _)
    have hrec := ih (fun x hx => h x (List.mem_cons_of_mem _ hx))
    cases hl : line ++ 13 :: 10 :: rest with
    | nil => simp at hl
    | cons c t =>
      rw [List.cons_append, hl, read_until_crlf, if_neg (by simp [hb]), ← hl, hrec]
      simp [Option.map]

theorem digitsVal_natToDecimal (n : Nat) : digitsVal (natToDecimal n) = n := by
  rcases eq_or_ne n 0 with h | h
  · subst h; simp [natToDecimal, digitsVal]
  · have key : ∀ L : List Nat, L.foldr (fun d acc => acc * 10 + d) 0 = Nat.ofDigits 10 L := by
      intro L
      induction L with
      | nil => simp [Nat.ofDigits]
      | cons d L ih => simp [Nat.ofDigits_cons, ih]; ring
    have step : digitsVal (natToDecimal n)
        = (Nat.digits 10 n).foldr (fun d acc => acc * 10 + d) 0 := by
      simp [natToDecimal, h, digitsVal, List.foldl_map, List.foldl_reverse, List.foldr_map,
        Nat.add_sub_cancel]
    rw [step, key, Nat.ofDigits_digits]

theorem natToDecimal_all_digits (n : Nat) : ∀ b ∈ natToDecimal n, isDigitByte b = true := by
  intro b hb
  rcases eq_or_ne n 0 with h | h
  · subst h; simp [natToDecimal] at hb; subst hb; decide
  · simp [natToDecimal, h] at hb
    obtain ⟨d, hd, rfl⟩ := hb
    have := Nat.digits_lt_base (by norm_num) hd
    simp [isDigitByte]; omega

theorem natToDecimal_ne_nil (n : Nat) : natToDecimal n ≠ [] := by
  rcases eq_or_ne n 0 with h | h
  · subst h; simp [natToDecimal]
  · simp [natToDecimal, h, Nat.digits_ne_nil_iff_ne_zero]

theorem digitsToNat?_natToDecimal (n : Nat) : digitsToNat? (natToDecimal n) = some n := by
  rw [digitsToNat?, if_pos ⟨natToDecimal_ne_nil n, List.all_eq_true.mpr (natToDecimal_all_digits n)⟩,
    digitsVal_natToDecimal]

/-- A non-empty all-digit byte list goes through the digit branch of
`parse_int` (its head is neither `+` nor `-`). -/
theorem parse_int_digits (dec : List Nat) (h1 : dec ≠ []) (h2 : dec.all isDigitByte = true)
    (h3 : digitsVal dec ≤ 2 ^ 63 - 1) : parse_int dec = .ok (digitsVal dec) := by
  cases dec with
  | nil => exact absurd rfl h1
  | cons b rest =>
    have hb : isDigitByte b = true := by
      have := List.all_eq_true.mp h2 b (List.mem_cons_self _ _)
      simpa using this
    have hb' : 48 ≤ b ∧ b ≤ 57 := by simpa [isDigitByte] using hb
    have hsome : digitsToNat? (b :: rest) = some (digitsVal (b :: rest)) := by
      rw [digitsToNat?, if_pos ⟨by simp, h2⟩]
    simp only [parse_int]
    rw [if_neg (by omega), if_neg (by omega), hsome]
    exact if_pos h3

theorem parse_int_natToDecimal (n : Nat) (h : n ≤ 2 ^ 63 - 1) :
    parse_int (natToDecimal n) = .ok n := by
  have := parse_int_digits (natToDecimal n) (natToDecimal_ne_nil n)
    (List.all_eq_true.mpr (natToDecimal_all_digits n))
    (by rw [digitsVal_natToDecimal]; exact h)
  rwa [digitsVal_natToDecimal] at this

theorem utf8CharCount_of_ascii (s : List Nat) (h : ∀ b ∈ s, b < 128) :
    utf8CharCount s = s.length := by
  rw [utf8CharCount, List.filter_eq_self.mpr]
  intro b hb
  have := h b hb
  simp [isContByte]
  omega

theorem i64_wrap_of_range (x : Int) (h1 : -(2 ^ 63) ≤ x) (h2 : x < 2 ^ 63) :
    i64_wrap x = x := by
  rw [i64_wrap]
  omega

theorem i64_wrap_i64_wrap (x : Int) : i64_wrap (i64_wrap x) = i64_wrap x := by
  rw [i64_wrap, i64_wrap]
  omega

set_option maxRecDepth 8192 in
theorem u128_of_i64_of_nonneg (t : Int) (h1 : 0 ≤ t) (h2 : t < 2 ^ 63) :
    u128_of_i64 t = t.toNat := by
  rw [u128_of_i64]
  omega

/-! ### Claim C7 -/

/-- C7: the source `to_command` PANICS on an ECHO request with zero
arguments (`args.first().unwrap()` on an empty vector) instead of
returning an arity error; with at least one argument it builds `Echo`
from the first argument.  This settles C7 against the code: the claim
(and the spec, which flags exactly this panic) prescribe an `ArityError`
the source does not implement. -/
theorem to_command_echo_behavior :
    to_command echoBytes [] = .error .panic ∧
    ∀ (a : RedisValue) (rest : List RedisValue),
      to_command echoBytes (a :: rest) = .ok (.Echo a) :=
  ⟨rfl, fun _ _ => rfl⟩

/-! ### Claim C8 -/

/-- C8: a plain `SET` of an existing key replaces both the stored value
and the TTL state: after `SET k v1 PX ttl` at time `t0` and `SET k v2`
at time `t1`, the entry for `k` holds `v2` with no expiry, and `GET k`
at ANY later time `t2` returns `v2`. -/
theorem set_overwrites_value_and_ttl (m : StoreMap) (k v1 v2 ttl : RedisValue)
    (t0 t1 t2 : Nat) :
    ∃ m1 m2,
      handle_command m t0 (.SetTimeout k v1 ttl) = .ok (m1, none) ∧
      handle_command m1 t1 (.Set k v2) = .ok (m2, none) ∧
      m2 k = some (v2, none) ∧
      handle_command m2 t2 (.Get k) = .ok (m2, some v2) := by
  refine ⟨storeInsert m k (v1, some (ttl, t0)),
    storeInsert (storeInsert m k (v1, some (ttl, t0))) k (v2, none), rfl, rfl, ?_, ?_⟩
  · simp [storeInsert]
  · simp [handle_command, storeInsert]

/-! ### Claim C9 -/

/-- C9: the `Get` arm of `handle_command` never mutates the store: if it
returns at all, the resulting map is the very map it was given — in
particular an entry whose TTL has elapsed stays physically present after
being reported as a miss, and every other key's entry is untouched. -/
theorem get_preserves_store (m : StoreMap) (now : Nat) (k : RedisValue)
    (m' : StoreMap) (r : Option RedisValue)
    (h : handle_command m now (.Get k) = .ok (m', r)) : m' = m := by
  simp only [handle_command] at h
  split at h
  · injection h with h1; injection h1 with h2 _; exact h2.symm
  · injection h with h1; injection h1 with h2 _; exact h2.symm
  · split at h
    · exact absurd h (by simp)
    · split at h
      · injection h with h1; injection h1 with h2 _; exact h2.symm
      · injection h with h1; injection h1 with h2 _; exact h2.symm
  · exact absurd h (by simp)

/-- A concrete store with one entry for key `"k"` holding `"v"` with a
3ms TTL recorded at instant 0, used to witness C9 on an expired read. -/
def expiredStore : StoreMap :=
  fun k => if k = .BulkString [107] then some (.BulkString [118], some (.Integer 3, 0)) else none

set_option maxRecDepth 100000 in
/-- C9 witness: reading the expired entry at time 10 reports the miss
sentinel, and the store afterwards is exactly the store before. -/
theorem get_preserves_store_witness :
    handle_command expiredStore 10 (.Get (.BulkString [107]))
      = .ok (expiredStore, some (.BulkString [45, 49])) ∧
    expiredStore = expiredStore :=
  ⟨rfl, get_preserves_store expiredStore 10 (.BulkString [107]) expiredStore
    (some (.BulkString [45, 49])) rfl⟩

/-! ### Claim C10 -/

/-- C10: a SET request with at least two arguments whose count is not
exactly 4 silently becomes a plain `Set` of the first two arguments; all
remaining arguments are dropped without any error. -/
theorem to_command_set_extra_args (k v : RedisValue) (rest : List RedisValue)
    (h : rest.length ≠ 2) :
    to_command setBytes (k :: v :: rest) = .ok (.Set k v) := by
  simp [to_command, ascii_lowercase, echoBytes, setBytes, h]

/-- C10 witness: `SET k v extra` (three arguments) yields `Set k v`. -/
theorem to_command_set_extra_args_witness :
    to_command setBytes [.BulkString [107], .BulkString [118], .Integer 0]
      = .ok (.Set (.BulkString [107]) (.BulkString [118])) :=
  to_command_set_extra_args (.BulkString [107]) (.BulkString [118]) [.Integer 0] (by decide)

/-! ### Claim C2 -/

/-- A store with one entry whose recorded TTL is the negative integer
`-1` (reachable through `SET k v px -1`, since `parse_int_with_sign`
accepts negative numbers), inserted at instant 0. -/
def negativeTtlStore : StoreMap :=
  fun k =>
    if k = .BulkString [107] then some (.BulkString [118], some (.Integer (-1), 0)) else none

set_option maxRecDepth 100000 in
/-- C2 counterexample: with recorded TTL `-1` ms inserted at instant 0
and read at instant 5, `elapsed_ms = 5 > -1 = ttl_ms`, so the claim
demands the miss sentinel; the code casts the TTL with `as u128`,
compares `5 > 2^128 - 1` (false) and returns the STORED value instead. -/
theorem get_expiry_counterexample :
    handle_command negativeTtlStore 5 (.Get (.BulkString [107]))
      = .ok (negativeTtlStore, some (.BulkString [118])) ∧ (-1 : Int) < 5 :=
  ⟨rfl, by decide⟩

/-- C2 amended: `get` returns `none` for a never-set key and the stored
value for a key without expiry; for a key with an `Integer` TTL `t`
inserted at `ins ≤ now` it returns the miss sentinel exactly when
`now - ins > u128_of_i64 t`, the comparison AFTER the source's `as u128`
cast: for `0 ≤ t < 2^63` that cast is the identity and the test is the
claimed strict `elapsed_ms > ttl_ms`, but a negative `t` wraps to
`2^128 + t`, so such an entry is never reported expired. -/
theorem get_lazy_expiry (m : StoreMap) (now : Nat) (key : RedisValue) :
    (m key = none → handle_command m now (.Get key) = .ok (m, none)) ∧
    (∀ v, m key = some (v, none) → handle_command m now (.Get key) = .ok (m, some v)) ∧
    (∀ v t ins, m key = some (v, some (.Integer t, ins)) → ins ≤ now →
      handle_command m now (.Get key) =
        .ok (m, some (if u128_of_i64 t < now - ins then .BulkString [45, 49] else v))) ∧
    (∀ t : Int, 0 ≤ t → t < 2 ^ 63 → u128_of_i64 t = t.toNat) := by
  refine ⟨?_, ?_, ?_, fun t h1 h2 => u128_of_i64_of_nonneg t h1 h2⟩
  · intro h; simp [handle_command, h]
  · intro v h; simp [handle_command, h]
  · intro v t ins h hle
    simp only [handle_command, h]
    rw [if_neg (by omega)]
    split <;> rfl

/-- A store with one never-expiring entry for the C2 witness. -/
def plainStore : StoreMap :=
  fun k => if k = .BulkString [107] then some (.BulkString [118], none) else none

/-- A store with one entry carrying TTL 3ms inserted at instant 2, for
the C2 witness. -/
def ttlStore : StoreMap :=
  fun k =>
    if k = .BulkString [107] then some (.BulkString [118], some (.Integer 3, 2)) else none

set_option maxRecDepth 100000 in
/-- C2 witness: a missing key reads as `none`; a no-expiry entry reads
as its value; the 3ms-TTL entry inserted at 2 and read at 7 (elapsed 5 >
3) reads as the miss sentinel; and the `u128` cast of the nonnegative
TTL 3 is 3 itself. -/
theorem get_lazy_expiry_witness :
    handle_command (fun _ => none) 7 (.Get (.BulkString [107]))
      = .ok ((fun _ => none : StoreMap), none) ∧
    handle_command plainStore 7 (.Get (.BulkString [107]))
      = .ok (plainStore, some (.BulkString [118])) ∧
    handle_command ttlStore 7 (.Get (.BulkString [107]))
      = .ok (ttlStore, some (.BulkString [45, 49])) ∧
    u128_of_i64 3 = 3 := by
  refine ⟨(get_lazy_expiry _ 7 _).1 rfl, (get_lazy_expiry _ 7 _).2.1 _ rfl, ?_, ?_⟩
  · have h := (get_lazy_expiry ttlStore 7 (.BulkString [107])).2.2.1
      (.BulkString [118]) 3 2 rfl (by omega)
    have h3 : u128_of_i64 3 = 3 := rfl
    rw [h3] at h
    simpa using h
  · exact (get_lazy_expiry (fun _ => none) 0 (.Integer 0)).2.2.2 3 (by decide) (by decide)

/-! ### Claim C1 -/

/-- C1 counterexample: the BulkString `"-1"` serializes to the null bulk
string `$-1\r\n`, and parsing those five bytes PANICS (the declared
length `-1` wraps through `as usize` and the payload slice is out of
bounds), so `parse(serialize(v))` is not `(v, 5)`: the round trip fails
on the sentinel value. -/
theorem serialize_parse_roundtrip_counterexample :
    RedisValue.serialize (.BulkString [45, 49]) = .ok [36, 45, 49, 13, 10] ∧
    parse_message 1 [36, 45, 49, 13, 10] = .error .panic :=
  ⟨rfl, rfl⟩

/-- Parsing dispatch: a buffer whose first byte is `+` goes to
`parse_simple_string`, at any positive fuel. -/
theorem parse_message_simple (fuel : Nat) (rest : List Nat) :
    parse_message (fuel + 1) (43 :: rest) = parse_simple_string (43 :: rest) := by
  simp [parse_message]

/-- Parsing dispatch: a buffer whose first byte is `$` goes to
`parse_bulk_string`, at any positive fuel. -/
theorem parse_message_bulk (fuel : Nat) (rest : List Nat) :
    parse_message (fuel + 1) (36 :: rest) = parse_bulk_string (36 :: rest) := by
  simp [parse_message]

/-- Evaluation of `parse_simple_string` on a well-formed frame: the line
before the terminator comes back with the header byte counted. -/
theorem parse_simple_string_ok (s rest : List Nat) (h13 : (13 : Nat) ∉ s)
    (hutf : isValidUTF8 s = true) :
    parse_simple_string (43 :: (s ++ 13 :: 10 :: rest)) = .ok (.SimpleString s, s.length + 3) := by
  have hruc : read_until_crlf (s ++ 13 :: 10 :: rest) = some (s, s.length + 2) :=
    read_until_crlf_append s rest (fun b hb => by rintro rfl; exact h13 hb)
  have hdrop : (43 :: (s ++ 13 :: 10 :: rest)).drop 1 = s ++ 13 :: 10 :: rest := rfl
  simp only [parse_simple_string, hdrop, hruc, hutf, if_true]

/-- Evaluation of `parse_bulk_string` on a frame whose declared length
`digitsVal dec` is covered by the bytes after the header: the payload is
exactly that many bytes, the two bytes after it are never examined, and
the reported consumption is header length (`dec.length + 3`) plus payload
length plus 2. -/
theorem parse_bulk_string_ok (dec rest : List Nat)
    (h1 : dec ≠ []) (h2 : dec.all isDigitByte = true)
    (h3 : digitsVal dec ≤ 2 ^ 63 - 1) (h4 : digitsVal dec ≤ rest.length)
    (h5 : isValidUTF8 (rest.take (digitsVal dec)) = true) :
    parse_bulk_string (36 :: (dec ++ 13 :: 10 :: rest))
      = .ok (.BulkString (rest.take (digitsVal dec)), dec.length + 3 + digitsVal dec + 2) := by
  have hnocr : ∀ b ∈ dec, b ≠ 13 := by
    intro b hb
    have := List.all_eq_true.mp h2 b hb
    simp [isDigitByte] at this
    omega
  have hruc := read_until_crlf_append dec rest hnocr
  have hint := parse_int_digits dec h1 h2 h3
  have hdrop : (36 :: (dec ++ 13 :: 10 :: rest)).drop 1 = dec ++ 13 :: 10 :: rest := rfl
  have hdrop2 : (36 :: (dec ++ 13 :: 10 :: rest)).drop (dec.length + 2 + 1) = rest := by
    have hsplit : 36 :: (dec ++ 13 :: 10 :: rest) = (36 :: dec ++ [13, 10]) ++ rest := by simp
    rw [hsplit]
    exact List.drop_left' (by simp)
  have hlen : ¬((36 :: (dec ++ 13 :: 10 :: rest)).length
      < dec.length + 2 + 1 + digitsVal dec) := by
    simp
    omega
  have hneg : ¬((digitsVal dec : Int) < 0) := by simp
  simp only [parse_bulk_string, hdrop, hruc, hint, hneg, if_false, Int.toNat_natCast, hlen,
    hdrop2, h5, if_true]

/-- C1 amended: the round trip holds for every SimpleString over valid
UTF-8 without CR or LF bytes, and for every BulkString over ASCII bytes
(so the serialized char-count header equals the byte count — every such
list is also valid UTF-8, carried as the redundant last hypothesis) other
than the sentinel `"-1"`, of length re-parsable as an `i64`: parsing the
serialization returns the value together with the full serialized byte
length, at any parser fuel. -/
theorem serialize_parse_roundtrip (fuel : Nat) (s : List Nat) :
    (isValidUTF8 s = true → (13 : Nat) ∉ s → (10 : Nat) ∉ s →
      ∃ bytes, RedisValue.serialize (.SimpleString s) = .ok bytes ∧
        parse_message (fuel + 1) bytes = .ok (.SimpleString s, bytes.length)) ∧
    ((∀ b ∈ s, b < 128) → s ≠ [45, 49] → s.length ≤ 2 ^ 63 - 1 → isValidUTF8 s = true →
      ∃ bytes, RedisValue.serialize (.BulkString s) = .ok bytes ∧
        parse_message (fuel + 1) bytes = .ok (.BulkString s, bytes.length)) := by
  constructor
  · intro hutf h13 _
    refine ⟨43 :: (s ++ 13 :: 10 :: []), by simp [RedisValue.serialize], ?_⟩
    refine (parse_message_simple fuel (s ++ 13 :: 10 :: [])).trans ?_
    refine (parse_simple_string_ok s [] h13 hutf).trans ?_
    simp
  · intro hascii hne hlen hvalid
    have hcount : utf8CharCount s = s.length := utf8CharCount_of_ascii s hascii
    refine ⟨36 :: (natToDecimal s.length ++ 13 :: 10 :: (s ++ 13 :: 10 :: [])), ?_, ?_⟩
    · show (if s = [45, 49] then _ else _) = _
      rw [if_neg hne, hcount]
      simp
    · have hdigits := natToDecimal_all_digits s.length
      have hbulk := parse_bulk_string_ok (natToDecimal s.length) (s ++ 13 :: 10 :: [])
        (natToDecimal_ne_nil s.length) (List.all_eq_true.mpr hdigits)
        (by rw [digitsVal_natToDecimal]; exact hlen)
        (by rw [digitsVal_natToDecimal]; simp)
        (by rw [digitsVal_natToDecimal, List.take_left' rfl]; exact hvalid)
      rw [digitsVal_natToDecimal, List.take_left' rfl] at hbulk
      refine (parse_message_bulk fuel
        (natToDecimal s.length ++ 13 :: 10 :: (s ++ 13 :: 10 :: []))).trans (hbulk.trans ?_)
      simp
      omega


set_option maxRecDepth 100000 in
/-- C1 witness: the round trip holds concretely for `SimpleString "OK"`
and `BulkString "hi"`. -/
theorem serialize_parse_roundtrip_witness :
    (∃ bytes, RedisValue.serialize (.SimpleString [79, 75]) = .ok bytes ∧
      parse_message 1 bytes = .ok (.SimpleString [79, 75], bytes.length)) ∧
    (∃ bytes, RedisValue.serialize (.BulkString [104, 105]) = .ok bytes ∧
      parse_message 1 bytes = .ok (.BulkString [104, 105], bytes.length)) :=
  ⟨(serialize_parse_roundtrip 0 [79, 75]).1 (by decide) (by decide) (by decide),
   (serialize_parse_roundtrip 0 [104, 105]).2 (by decide) (by decide) (by decide) (by decide)⟩

/-! ### Claim C3 -/

/-- Parsing dispatch: a buffer whose first byte is `*` goes to
`parse_array` at one less fuel. -/
theorem parse_message_array (fuel : Nat) (rest : List Nat) :
    parse_message (fuel + 1) (42 :: rest) = parse_array (parse_message fuel) (42 :: rest) := by
  simp [parse_message]

/-- C3 counterexample: on `$5\r\nab` the declared length 5 exceeds the
two available payload bytes — the claim demands a MalformedFrame error
result, but the source slices `buffer[4..9]` out of bounds and PANICS
(modelled as the distinct outcome `PErr.panic`). -/
theorem parse_malformed_counterexample :
    parse_message 1 [36, 53, 13, 10, 97, 98] = .error .panic ∧
    (Except.error PErr.panic : PResult (RedisValue × Nat)) ≠ .error .err :=
  ⟨rfl, by decide⟩

/-- C3 amended: `parse_message` returns an error RESULT when the leading
byte is none of `+`/`*`/`$` (`:` included, its branch being commented
out), when the header CRLF is missing, or when a declared length does
not parse as an `i64`; but a buffer that runs out before a declared bulk
length is satisfied PANICS instead (see the counterexample), as do a
negative declared bulk length and an empty buffer. -/
theorem parse_malformed_errors (fuel : Nat) (b : Nat) (rest line : List Nat) (len : Nat)
    (h : (b ≠ 43 ∧ b ≠ 42 ∧ b ≠ 36) ∨
         read_until_crlf rest = none ∨
         ((b = 42 ∨ b = 36) ∧ read_until_crlf rest = some (line, len) ∧
           parse_int line = .error ())) :
    parse_message (fuel + 1) (b :: rest) = .error .err := by
  rcases h with ⟨h1, h2, h3⟩ | h2 | ⟨hb, hsome, hint⟩
  · simp [parse_message, h1, h2, h3]
  · rcases eq_or_ne b 43 with rfl | hb43
    · refine (parse_message_simple fuel rest).trans ?_
      simp [parse_simple_string, h2]
    · rcases eq_or_ne b 42 with rfl | hb42
      · refine (parse_message_array fuel rest).trans ?_
        simp [parse_array, h2]
      · rcases eq_or_ne b 36 with rfl | hb36
        · refine (parse_message_bulk fuel rest).trans ?_
          simp [parse_bulk_string, h2]
        · simp [parse_message, hb43, hb42, hb36]
  · rcases hb with rfl | rfl
    · refine (parse_message_array fuel rest).trans ?_
      simp [parse_array, hsome, hint]
    · refine (parse_message_bulk fuel rest).trans ?_
      simp [parse_bulk_string, hsome, hint]

/-- C3 witness: a buffer starting with `:` (the type byte whose branch
the source commented out) is rejected with an error result. -/
theorem parse_malformed_errors_witness : parse_message 1 [58] = .error .err :=
  parse_malformed_errors 0 58 [] [] 0 (.inl (by decide))

/-! ### Claim C4 -/

set_option maxRecDepth 100000 in
/-- C4 counterexample: the decimal `9223372036854775808` (= `2^63`)
overflows `i64`, yet `parse_int_with_sign` parses it as a `u64` and the
`as i64` cast WRAPS it to `-2^63`, returning `Ok` instead of failing. -/
theorem parse_int_with_sign_counterexample :
    digitsVal [57, 50, 50, 51, 51, 55, 50, 48, 51, 54, 56, 53, 52, 55, 55, 53, 56, 48, 56]
      = 2 ^ 63 ∧
    parse_int_with_sign
        [57, 50, 50, 51, 51, 55, 50, 48, 51, 54, 56, 53, 52, 55, 55, 53, 56, 48, 56]
      = .ok (-(2 ^ 63)) :=
  ⟨by decide, by decide⟩

/-- C4 amended: `parse_int_with_sign("+123") = 123`,
`parse_int_with_sign("-45") = -45`, and empty input fails; after the one
optional leading sign the remainder must be a valid `u64` decimal
(Rust's unsigned parsing itself permits one further `+`), else an error;
an all-digit input below `2^64` SUCCEEDS with the value wrapped
two's-complement into `i64` (so magnitudes in `[2^63, 2^64)` wrap to
negatives instead of failing, as the counterexample shows); only
magnitudes at or above `2^64` fail as overflow. -/
theorem parse_int_with_sign_spec :
    parse_int_with_sign [43, 49, 50, 51] = .ok 123 ∧
    parse_int_with_sign [45, 52, 53] = .ok (-45) ∧
    parse_int_with_sign [] = .error () ∧
    (∀ b rest, (b = 43 ∨ b = 45) → parse_u64 rest = none →
      parse_int_with_sign (b :: rest) = .error ()) ∧
    (∀ b rest, b ≠ 43 → b ≠ 45 → parse_u64 (b :: rest) = none →
      parse_int_with_sign (b :: rest) = .error ()) ∧
    (∀ l n, digitsToNat? l = some n → n < 2 ^ 64 →
      parse_int_with_sign l = .ok (i64_wrap n)) ∧
    (∀ l n, digitsToNat? l = some n → 2 ^ 64 ≤ n → parse_int_with_sign l = .error ()) := by
  refine ⟨by decide, by decide, rfl, ?_, ?_, ?_, ?_⟩
  · intro b rest hb hu
    rcases hb with rfl | rfl
    · simp [parse_int_with_sign, hu]
    · simp [parse_int_with_sign, hu]
  · intro b rest h43 h45 hu
    simp [parse_int_with_sign, h43, h45, hu]
  · intro l n hd hn
    have hcond : (l ≠ [] ∧ l.all isDigitByte = true) ∧ n = digitsVal l := by
      rw [digitsToNat?] at hd
      split at hd
      · exact ⟨by assumption, by injection hd with h; exact h.symm⟩
      · exact absurd hd (by simp)
    obtain ⟨⟨hne, hall⟩, rfl⟩ := hcond
    cases l with
    | nil => exact absurd rfl hne
    | cons b rest =>
      have hb : 48 ≤ b ∧ b ≤ 57 := by
        have := List.all_eq_true.mp hall b (List.mem_cons_self _ _)
        simpa [isDigitByte] using this
      have hb43 : ¬b = 43 := by omega
      have hb45 : ¬b = 45 := by omega
      have hdl : digitsToNat? (b :: rest) = some (digitsVal (b :: rest)) := by
        rw [digitsToNat?, if_pos ⟨by simp, hall⟩]
      have hu : parse_u64 (b :: rest) = some (digitsVal (b :: rest)) := by
        simp [parse_u64, hb43, hdl]
        omega
      simp [parse_int_with_sign, hb43, hb45, hu, one_mul, i64_wrap_i64_wrap]
  · intro l n hd hn
    have hcond : (l ≠ [] ∧ l.all isDigitByte = true) ∧ n = digitsVal l := by
      rw [digitsToNat?] at hd
      split at hd
      · exact ⟨by assumption, by injection hd with h; exact h.symm⟩
      · exact absurd hd (by simp)
    obtain ⟨⟨hne, hall⟩, rfl⟩ := hcond
    cases l with
    | nil => exact absurd rfl hne
    | cons b rest =>
      have hb : 48 ≤ b ∧ b ≤ 57 := by
        have := List.all_eq_true.mp hall b (List.mem_cons_self _ _)
        simpa [isDigitByte] using this
      have hb43 : ¬b = 43 := by omega
      have hb45 : ¬b = 45 := by omega
      have hdl : digitsToNat? (b :: rest) = some (digitsVal (b :: rest)) := by
        rw [digitsToNat?, if_pos ⟨by simp, hall⟩]
      have hu : parse_u64 (b :: rest) = none := by
        simp [parse_u64, hb43, hdl]
        omega
      simp [parse_int_with_sign, hb43, hb45, hu]

set_option maxRecDepth 100000 in
/-- C4 witness: a bare `+` fails, `"a"` fails, `"12"` parses to 12, and
the 20-digit `18446744073709551616` (= `2^64`) fails as overflow. -/
theorem parse_int_with_sign_spec_witness :
    parse_int_with_sign [43] = .error () ∧
    parse_int_with_sign [97] = .error () ∧
    parse_int_with_sign [49, 50] = .ok 12 ∧
    parse_int_with_sign [49, 56, 52, 52, 54, 55, 52, 52, 48, 55, 51, 55, 48, 57, 53, 53, 49,
      54, 49, 54] = .error () := by
  refine ⟨?_, ?_, ?_, ?_⟩
  · exact parse_int_with_sign_spec.2.2.2.1 43 [] (Or.inl rfl) rfl
  · exact parse_int_with_sign_spec.2.2.2.2.1 97 [] (by decide) (by decide) (by decide)
  · have h := parse_int_with_sign_spec.2.2.2.2.2.1 [49, 50] 12 (by decide) (by decide)
    have h12 : (Except.ok (i64_wrap ((12 : Nat) : Int)) : Except Unit Int) = .ok 12 := by decide
    exact h.trans h12
  · exact parse_int_with_sign_spec.2.2.2.2.2.2
      [49, 56, 52, 52, 54, 55, 52, 52, 48, 55, 51, 55, 48, 57, 53, 53, 49, 54, 49, 54]
      (2 ^ 64) (by decide) (by decide)

/-! ### Claim C5 -/

/-- C5 counterexample: on `$2\r\nhiXY` the two bytes after the payload
are `XY`, not CRLF, yet `parse_bulk_string` succeeds and still reports 8
bytes consumed — the trailing terminator is never examined, where the
claim demands a failure when it is absent. -/
theorem parse_bulk_trailing_counterexample :
    parse_bulk_string [36, 50, 13, 10, 104, 105, 88, 89] = .ok (.BulkString [104, 105], 8) ∧
    List.drop 6 [36, 50, 13, 10, 104, 105, 88, 89] ≠ [13, 10] :=
  ⟨rfl, by decide⟩

/-- C5 amended: on a `$` frame whose declared length is covered by the
buffer, bulk-string parsing takes exactly that many bytes after the
length header as the payload and reports header bytes + payload length +
2 consumed, but it does NOT require a trailing CRLF: the two bytes it
skips are never examined (`rest` beyond the payload is unconstrained
here), and they may even lie past the end of the buffer. -/
theorem parse_bulk_string_spec (dec rest : List Nat) (h1 : dec ≠ [])
    (h2 : dec.all isDigitByte = true) (h3 : digitsVal dec ≤ 2 ^ 63 - 1)
    (h4 : digitsVal dec ≤ rest.length) (h5 : isValidUTF8 (rest.take (digitsVal dec)) = true) :
    parse_bulk_string (36 :: (dec ++ 13 :: 10 :: rest))
      = .ok (.BulkString (rest.take (digitsVal dec)), dec.length + 3 + digitsVal dec + 2) :=
  parse_bulk_string_ok dec rest h1 h2 h3 h4 h5

set_option maxRecDepth 100000 in
/-- C5 witness: `$3\r\nabcxy` parses to the payload `abc` with 9 bytes
reported consumed although bytes 7-8 are `xy`. -/
theorem parse_bulk_string_spec_witness :
    parse_bulk_string [36, 51, 13, 10, 97, 98, 99, 120, 121]
      = .ok (.BulkString [97, 98, 99], 9) := by
  have h := parse_bulk_string_spec [51] [97, 98, 99, 120, 121] (by decide) (by decide)
    (by decide) (by decide) (by decide)
  simpa [digitsVal] using h

/-! ### Claim C6 -/

/-- C6 counterexample: a 4-argument SET whose `px` option is well-formed
but whose TTL argument is NOT a BulkString (here `Integer 5`) silently
produces `SetTimeout` with the substituted DEFAULT TTL `Integer 1000` —
an `Ok`, not the error result the claim requires. -/
theorem to_command_set_px_counterexample :
    to_command setBytes
        [.BulkString [107], .BulkString [118], .BulkString [112, 120], .Integer 5]
      = .ok (.SetTimeout (.BulkString [107]) (.BulkString [118]) (.Integer 1000)) :=
  rfl

/-- C6 amended: for a 4-argument SET, when arg 2 is a BulkString
lowercasing to `"px"`: a BulkString arg 3 is parsed by
`parse_int_with_sign`, giving `SetTimeout` on success and a PANIC (the
`.unwrap()`) on failure, while a non-BulkString arg 3 silently becomes
the default TTL 1000; a BulkString arg 2 other than `"px"` is an error
(`UnsupportedOption`); a non-BulkString arg 2 PANICS. -/
theorem to_command_set_px_spec (k v a3 : RedisValue) (px num : List Nat) :
    (ascii_lowercase px = pxBytes → ∀ n : Int, parse_int_with_sign num = .ok n →
      to_command setBytes [k, v, .BulkString px, .BulkString num]
        = .ok (.SetTimeout k v (.Integer n))) ∧
    (ascii_lowercase px = pxBytes → parse_int_with_sign num = .error () →
      to_command setBytes [k, v, .BulkString px, .BulkString num] = .error .panic) ∧
    (ascii_lowercase px = pxBytes → (∀ s, a3 ≠ .BulkString s) →
      to_command setBytes [k, v, .BulkString px, a3]
        = .ok (.SetTimeout k v (.Integer 1000))) ∧
    (ascii_lowercase px ≠ pxBytes →
      to_command setBytes [k, v, .BulkString px, a3] = .error .err) ∧
    (∀ a2, (∀ s, a2 ≠ .BulkString s) →
      to_command setBytes [k, v, a2, a3] = .error .panic) := by
  have e1 : ascii_lowercase setBytes = setBytes := rfl
  have e2 : (setBytes = echoBytes) = False := by decide
  refine ⟨?_, ?_, ?_, ?_, ?_⟩
  · intro hpx n hn
    simp [to_command, e1, e2, hpx, hn]
  · intro hpx hn
    simp [to_command, e1, e2, hpx, hn]
  · intro hpx hnb
    cases a3 with
    | BulkString s => exact absurd rfl (hnb s)
    | SimpleString s => simp [to_command, e1, e2, hpx]
    | Integer i => simp [to_command, e1, e2, hpx]
    | Array a => simp [to_command, e1, e2, hpx]
  · intro hpx
    simp [to_command, e1, e2, hpx]
  · intro a2 hnb
    cases a2 with
    | BulkString s => exact absurd rfl (hnb s)
    | SimpleString s => simp [to_command, e1, e2]
    | Integer i => simp [to_command, e1, e2]
    | Array a => simp [to_command, e1, e2]

set_option maxRecDepth 100000 in
/-- C6 witness: `SET k v Px 5` (mixed-case option) gives TTL 5;
`SET k v px a` panics on the unparseable TTL; `SET k v px <simple>`
silently gets TTL 1000; `SET k v py 0` is an UnsupportedOption error;
`SET k v 1 2` with a non-BulkString option panics. -/
theorem to_command_set_px_spec_witness :
    to_command setBytes
        [.BulkString [107], .BulkString [118], .BulkString [80, 120], .BulkString [53]]
      = .ok (.SetTimeout (.BulkString [107]) (.BulkString [118]) (.Integer 5)) ∧
    to_command setBytes
        [.BulkString [107], .BulkString [118], .BulkString [112, 120], .BulkString [97]]
      = .error .panic ∧
    to_command setBytes
        [.BulkString [107], .BulkString [118], .BulkString [112, 120], .SimpleString []]
      = .ok (.SetTimeout (.BulkString [107]) (.BulkString [118]) (.Integer 1000)) ∧
    to_command setBytes
        [.BulkString [107], .BulkString [118], .BulkString [112, 121], .Integer 0]
      = .error .err ∧
    to_command setBytes [.BulkString [107], .BulkString [118], .Integer 1, .Integer 2]
      = .error .panic := by
  refine ⟨?_, ?_, ?_, ?_, ?_⟩
  · exact (to_command_set_px_spec (.BulkString [107]) (.BulkString [118]) (.Integer 0)
      [80, 120] [53]).1 (by decide) 5 (by decide)
  · exact (to_command_set_px_spec (.BulkString [107]) (.BulkString [118]) (.Integer 0)
      [112, 120] [97]).2.1 (by decide) (by decide)
  · exact (to_command_set_px_spec (.BulkString [107]) (.BulkString [118]) (.SimpleString [])
      [112, 120] []).2.2.1 (by decide) (fun s h => RedisValue.noConfusion h)
  · exact (to_command_set_px_spec (.BulkString [107]) (.BulkString [118]) (.Integer 0)
      [112, 121] []).2.2.2.1 (by decide)
  · exact (to_command_set_px_spec (.BulkString [107]) (.BulkString [118]) (.Integer 2)
      [] []).2.2.2.2 (.Integer 1) (fun s h => RedisValue.noConfusion h)

end Codecrafters
